import Mathlib

/-!
Shallow embedding of the Beat Sequencer engine of src/app.js.

JavaScript numbers are modelled as rationals, the mutable module state
of the IIFE (app.js lines 31-52) as an explicit `State` record, and the
calls handed to the Web Audio API as observation logs (`committed` and
`voices`) carried in the state.  DOM, canvas and toast work is omitted:
it writes no engine state that any function modelled here reads.
Web Audio noise buffers are modelled by allocation ids (an id is an
index into `allocatedNoise`, the list of durations of all buffers ever
created), so reference identity of buffers is identity of ids.
-/

/-- Hardware audio clock handle (the Web Audio AudioContext); only its
current time is read by the engine. The clock advancing between events
is modelled by passing the reading at each event explicitly. -/
structure AudioCtx where
  currentTime : ℚ
deriving DecidableEq

/-- CONFIG.steps (app.js line 15). -/
def CONFIG_steps : Nat := 16

/-- CONFIG.rows (app.js line 16). -/
def CONFIG_rows : Nat := 6

/-- CONFIG.defaultBpm (app.js line 17). -/
def CONFIG_defaultBpm : ℚ := 120

/-- CONFIG.minBpm (app.js line 18). -/
def CONFIG_minBpm : ℚ := 60

/-- CONFIG.maxBpm (app.js line 19). -/
def CONFIG_maxBpm : ℚ := 180

/-- CONFIG.scheduleAheadTime in seconds (app.js line 22): the look-ahead
horizon of the scheduler. -/
def CONFIG_scheduleAheadTime : ℚ := 1/10

/-- SOUNDS (app.js line 26): instrument name for each pattern row. -/
def SOUNDS : List String := ["kick", "snare", "hihat", "tom", "clap", "rim"]

/-- The pre-generated noise buffer table (app.js lines 48-52): each slot
holds the id of an allocated buffer, or none before generation (null in
the source). -/
structure NoiseBuffers where
  short : Option Nat
  medium : Option Nat
  long : Option Nat
deriving DecidableEq

/-- One fire-and-forget voice handed to the audio output graph: the
sound name, the exact trigger timestamp given to it, and the noise
buffer ids its buffer source nodes read (empty for purely
oscillator-based sounds). -/
structure Voice where
  sound : String
  time : ℚ
  noise : List (Option Nat)
deriving DecidableEq

/-- The mutable module state of app.js (lines 31-52) plus observation
logs.  `committed` records each (step index, timestamp) pair the
scheduler commits (one entry per iteration of the while loop in
`scheduler`, app.js lines 457-467); `voices` records each voice handed
to the audio graph by `playSoundAtTime`.  `allocatedNoise` records the
durations of every noise buffer ever created by `createNoiseBuffer`. -/
@[ext]
structure State where
  audioCtx : Option AudioCtx
  pattern : List (List Bool)
  currentStep : Nat
  isPlaying : Bool
  schedulerTimerId : Option Nat
  bpm : ℚ
  nextStepTime : ℚ
  lastScheduledStep : Int
  noiseBuffers : NoiseBuffers
  allocatedNoise : List ℚ
  nextTimerId : Nat
  committed : List (Nat × ℚ)
  voices : List Voice
deriving DecidableEq

/-- createEmptyPattern (app.js lines 76-80): 6 rows of 16 false cells. -/
def createEmptyPattern : List (List Bool) :=
  List.replicate CONFIG_rows (List.replicate CONFIG_steps false)

/-- createNoiseBuffer (app.js lines 375-386): allocates a fresh buffer
of the given duration filled with random samples; the random content is
abstracted away, the fresh identity (a new id) is kept. Returns the id
of the new buffer. -/
def createNoiseBuffer (duration : ℚ) (s : State) : Nat × State :=
  (s.allocatedNoise.length, { s with allocatedNoise := s.allocatedNoise ++ [duration] })

/-- generateNoiseBuffers (app.js lines 145-149): fills the three slots
with freshly created buffers of durations 0.05, 0.15 and 0.3 seconds. -/
def generateNoiseBuffers (s : State) : State :=
  let p1 := createNoiseBuffer (1/20) s
  let p2 := createNoiseBuffer (3/20) p1.2
  let p3 := createNoiseBuffer (3/10) p2.2
  { p3.2 with noiseBuffers := ⟨some p1.1, some p2.1, some p3.1⟩ }

/-- initAudio (app.js lines 114-139): a no-op when the audio context
already exists; otherwise creates the context and pre-generates the
noise buffers.  Master gain, analyser and waveform wiring carry no
state read by the scheduler and are omitted. -/
def initAudio (c : AudioCtx) (s : State) : State :=
  if s.audioCtx.isSome then s
  else generateNoiseBuffers { s with audioCtx := some c }

/-- getStepDuration (app.js lines 395-397): `60.0 / bpm / 4` seconds. -/
def getStepDuration (bpm : ℚ) : ℚ := 60 / bpm / 4

/-- Noise-buffer reads performed per trigger by the play functions:
playSnare reads noiseBuffers.long (app.js line 221), playHihat reads
noiseBuffers.medium (line 259), playClap reads noiseBuffers.short three
times and noiseBuffers.long once (lines 305 and 327); kick, tom and rim
build only oscillators and read no noise buffer. -/
def soundNoise (nb : NoiseBuffers) : String → List (Option Nat)
  | "snare" => [nb.long]
  | "hihat" => [nb.medium]
  | "clap" => [nb.short, nb.short, nb.short, nb.long]
  | _ => []

/-- playSoundAtTime (app.js lines 151-174): silently returns when the
audio context does not exist; otherwise the switch dispatches the six
known sound names to their play functions (a name outside SOUNDS falls
through the switch and produces nothing). A dispatched play function
builds one voice at the given timestamp. -/
def playSoundAtTime (sound : String) (time : ℚ) (s : State) : State :=
  match s.audioCtx with
  | none => s
  | some _ =>
    if SOUNDS.contains sound then
      { s with voices := s.voices ++ [⟨sound, time, soundNoise s.noiseBuffers sound⟩] }
    else s

/-- One row of the scheduleStep loop, described denotationally: the
voice row `row` contributes at step `step` and time `t`, if any. -/
def rowVoice (nb : NoiseBuffers) (pat : List (List Bool)) (step : Nat) (t : ℚ)
    (row : Nat) : Option Voice :=
  if (pat.getD row []).getD step false && SOUNDS.contains (SOUNDS.getD row "") then
    some ⟨SOUNDS.getD row "", t, soundNoise nb (SOUNDS.getD row "")⟩
  else none

/-- The voices scheduleStep commits for one step: one per active row,
in row order, all at the same timestamp. -/
def stepVoices (nb : NoiseBuffers) (pat : List (List Bool)) (step : Nat) (t : ℚ) :
    List Voice :=
  (List.range CONFIG_rows).filterMap (rowVoice nb pat step t)

/-- Gate a list of voices on the audio context being initialized
(playSoundAtTime emits nothing when it is null). -/
def ctxGate (ctx : Option AudioCtx) (l : List Voice) : List Voice :=
  match ctx with
  | none => []
  | some _ => l

/-- The voices scheduleStep commits in state `s` (none when the audio
context is uninitialized, since playSoundAtTime then returns early). -/
def stepVoicesIn (s : State) (step : Nat) (t : ℚ) : List Voice :=
  ctxGate s.audioCtx (stepVoices s.noiseBuffers s.pattern step t)

/-- scheduleStep (app.js lines 476-482): for each row in order, if the
pattern cell at (row, step) is true, hand the row instrument and the
exact timestamp to playSoundAtTime. -/
def scheduleStep (step : Nat) (time : ℚ) (s : State) : State :=
  (List.range CONFIG_rows).foldl
    (fun acc row =>
      if (acc.pattern.getD row []).getD step false then
        playSoundAtTime (SOUNDS.getD row "") time acc
      else acc) s

/-- One iteration of the while loop in scheduler (app.js lines 457-467):
schedule the current step at nextStepTime (scheduleStepUI is cosmetic
and omitted), then advance nextStepTime by the current step duration and
the step index by one modulo CONFIG.steps.  The committed log entry is
observation only. -/
def commitStep (s : State) : State :=
  let s1 := scheduleStep s.currentStep s.nextStepTime s
  { s1 with
    committed := s1.committed ++ [(s1.currentStep, s1.nextStepTime)],
    nextStepTime := s1.nextStepTime + getStepDuration s1.bpm,
    currentStep := (s1.currentStep + 1) % CONFIG_steps }

/-- The while loop of scheduler (app.js line 457): while nextStepTime is
under the current hardware time plus the look-ahead horizon, commit a
step.  `now` is the audio clock reading at this heartbeat (the source
re-reads `audioCtx.currentTime` each iteration; the reading is frozen
per heartbeat here, as the loop runs in microseconds).  The loop is
given fuel; each claim is stated so that exhausting fuel only truncates
a run, never fabricates commits. -/
def schedulerLoop : Nat → ℚ → State → State
  | 0, _, s => s
  | fuel + 1, now, s =>
    if s.nextStepTime < now + CONFIG_scheduleAheadTime then
      schedulerLoop fuel now (commitStep s)
    else s

/-- scheduler (app.js lines 453-471): returns immediately when not
playing (no commit, no re-armed wake-up); otherwise drains the look-ahead
window and re-arms the coarse wake-up timer. -/
def scheduler (fuel : Nat) (now : ℚ) (s : State) : State :=
  if s.isPlaying then
    let s1 := schedulerLoop fuel now s
    { s1 with schedulerTimerId := some s1.nextTimerId, nextTimerId := s1.nextTimerId + 1 }
  else s

/-- startSequencer (app.js lines 403-417): a no-op when already playing;
otherwise sets isPlaying, resets the step index to 0, seeds nextStepTime
to `audioCtx.currentTime + 0.05`, and runs the scheduler once.  When the
audio context is null the read of `audioCtx.currentTime` at line 412
throws a TypeError; the first component carries that thrown error (none
means normal return), and the second component the state at that point
(isPlaying was already set before the throw). -/
def startSequencer (fuel : Nat) (s : State) : Option String × State :=
  if s.isPlaying then (none, s)
  else
    let s1 := { s with isPlaying := true }
    match s1.audioCtx with
    | none => (some "TypeError: cannot read currentTime of null", s1)
    | some c =>
      let s2 := { s1 with
        currentStep := 0,
        nextStepTime := c.currentTime + 1/20,
        lastScheduledStep := -1 }
      (none, scheduler fuel c.currentTime s2)

/-- stopSequencer (app.js lines 419-434): a no-op when already stopped;
otherwise clears isPlaying, cancels the pending wake-up timer and resets
the step index to 0. -/
def stopSequencer (s : State) : State :=
  if s.isPlaying then
    { s with isPlaying := false, schedulerTimerId := none, currentStep := 0 }
  else s

/-- setBpm (app.js lines 497-501): stores the value clamped to
[CONFIG.minBpm, CONFIG.maxBpm]; a total function, it never throws. -/
def setBpm (newBpm : ℚ) (s : State) : State :=
  { s with bpm := max CONFIG_minBpm (min CONFIG_maxBpm newBpm) }

/-- The parsed persisted blob `{pattern, bpm}` (see savePattern, app.js
lines 644-657).  A field absent from the parsed JSON, or a pattern
value that is not an array of arrays of booleans, is modelled as none. -/
structure SavedData where
  pattern : Option (List (List Bool))
  bpm : Option ℚ
deriving DecidableEq

/-- loadPattern (app.js lines 659-689): `stored = none` models an absent
key or a JSON.parse failure (both leave the state untouched).  The
validation checks only `Array.isArray(parsed.pattern)`,
`parsed.pattern.length === CONFIG.rows` and
`parsed.pattern[0].length === CONFIG.steps`; when it passes, the pattern
is installed, and a truthy bpm (present and nonzero) is passed through
setBpm. -/
def loadPattern (stored : Option SavedData) (s : State) : State :=
  match stored with
  | none => s
  | some parsed =>
    match parsed.pattern with
    | none => s
    | some p =>
      if p.length = CONFIG_rows ∧ (p.getD 0 []).length = CONFIG_steps then
        let s1 := { s with pattern := p }
        match parsed.bpm with
        | some q => if q ≠ 0 then setBpm q s1 else s1
        | none => s1
      else s

/-- The restore branch of init (app.js lines 849-866): a truthy parsed
pattern is installed with no dimension validation (any array is truthy
in JavaScript), and a truthy bpm (present and nonzero) is assigned to
the live bpm directly, with no clamping. -/
def initRestore (stored : Option SavedData) (s : State) : State :=
  match stored with
  | none => s
  | some parsed =>
    let s1 :=
      match parsed.pattern with
      | some p => { s with pattern := p }
      | none => s
    match parsed.bpm with
    | some q => if q ≠ 0 then { s1 with bpm := q } else s1
    | none => s1

/-- The module state right after app.js loads (lines 31-52), before any
user interaction and with nothing restored from storage. -/
def initialState : State :=
  { audioCtx := none
    pattern := createEmptyPattern
    currentStep := 0
    isPlaying := false
    schedulerTimerId := none
    bpm := CONFIG_defaultBpm
    nextStepTime := 0
    lastScheduledStep := -1
    noiseBuffers := ⟨none, none, none⟩
    allocatedNoise := []
    nextTimerId := 0
    committed := []
    voices := [] }

/-- External events driving the engine: a heartbeat firing with the
given clock reading, a tempo change, transport presses, a preview
play, an initAudio call, and a storage load. -/
inductive Op where
  | heartbeat (now : ℚ)
  | tempo (q : ℚ)
  | transportStart
  | transportStop
  | preview (sound : String) (now : ℚ)
  | audioInit (c : AudioCtx)
  | load (stored : Option SavedData)
deriving DecidableEq

/-- Interpretation of one external event on the engine state. -/
def applyOp (fuel : Nat) (s : State) : Op → State
  | .heartbeat now => scheduler fuel now s
  | .tempo q => setBpm q s
  | .transportStart => (startSequencer fuel s).2
  | .transportStop => stopSequencer s
  | .preview sound now => playSoundAtTime sound now s
  | .audioInit c => initAudio c s
  | .load stored => loadPattern stored s

/-- Interpretation of a sequence of external events. -/
def runOps (fuel : Nat) (s : State) : List Op → State
  | [] => s
  | op :: ops => runOps fuel (applyOp fuel s op) ops

/-- The ideal commit trace: n steps whose indices cycle through
0,...,15 and whose timestamps advance arithmetically by d from t0. -/
def idealCommits (t0 d : ℚ) (n : Nat) : List (Nat × ℚ) :=
  (List.range n).map fun k => (k % CONFIG_steps, t0 + (k : ℚ) * d)

/-- Invariant of a running sequencer whose run started with first
timestamp t0 and step duration d and has seen no tempo change: the
committed log is the ideal trace, the step index and next trigger time
are determined by its length, and the voices log commits every active
instrument of each committed step at that exact timestamp. -/
def RunInv (t0 d : ℚ) (s : State) : Prop :=
  (∃ c, s.audioCtx = some c) ∧
  getStepDuration s.bpm = d ∧
  s.committed = idealCommits t0 d s.committed.length ∧
  s.currentStep = s.committed.length % CONFIG_steps ∧
  s.nextStepTime = t0 + (s.committed.length : ℚ) * d ∧
  s.voices = s.committed.flatMap fun p => stepVoices s.noiseBuffers s.pattern p.1 p.2

/-- Invariant for the noise-buffer lifecycle: once audio is initialized,
the three buffer slots and the allocation log are frozen, and every
voice ever emitted reads exactly the buffers its sound name dictates
from that frozen table. -/
def BufInv (nb : NoiseBuffers) (al : List ℚ) (s : State) : Prop :=
  s.audioCtx.isSome = true ∧
  s.noiseBuffers = nb ∧
  s.allocatedNoise = al ∧
  ∀ v ∈ s.voices, v.noise = soundNoise nb v.sound

/-- A concrete audio clock for witnesses. -/
def exCtx : AudioCtx := ⟨1⟩

/-- Concrete state after the user dismissed the overlay (initAudio ran)
but before pressing play. -/
def exReady : State := initAudio exCtx initialState

/-- A concrete mid-run state: audio initialized, transport Running at
step 3 with a pending wake-up timer and one step already committed. -/
def exRunning : State :=
  { audioCtx := some exCtx
    pattern := createEmptyPattern
    currentStep := 3
    isPlaying := true
    schedulerTimerId := some 0
    bpm := CONFIG_defaultBpm
    nextStepTime := 2
    lastScheduledStep := -1
    noiseBuffers := ⟨some 0, some 1, some 2⟩
    allocatedNoise := [1/20, 3/20, 3/10]
    nextTimerId := 1
    committed := [(0, 1)]
    voices := [] }

/-- A ragged persisted pattern: 6 rows, the first of length 16, the
others empty, so it is not a 6-by-16 grid. -/
def badPattern : List (List Bool) :=
  List.replicate CONFIG_steps false :: [[], [], [], [], []]

/-- Concrete run for the scheduler-cycle witness: start, then one
heartbeat with the clock at 1.2 seconds. -/
def exRun1 : State :=
  runOps 8 (startSequencer 8 exReady).2 ([(6/5 : ℚ)].map Op.heartbeat)

/-- A concrete mixed event sequence for the noise-buffer witness. -/
def exOps : List Op :=
  [Op.transportStart, Op.heartbeat (6/5), Op.preview "snare" 2,
   Op.tempo 100, Op.transportStop]


/-! Helper lemmas: denotational characterizations of the imperative
loops and transitions, shared across the claim theorems. -/

theorem ctxGate_nil (ctx : Option AudioCtx) : ctxGate ctx [] = [] := by
  cases ctx <;> rfl

theorem ctxGate_append (ctx : Option AudioCtx) (l1 l2 : List Voice) :
    ctxGate ctx (l1 ++ l2) = ctxGate ctx l1 ++ ctxGate ctx l2 := by
  cases ctx <;> rfl

theorem playSoundAtTime_eq (sound : String) (t : ℚ) (s : State) :
    playSoundAtTime sound t s =
      { s with voices := s.voices ++ ctxGate s.audioCtx (if SOUNDS.contains sound then [⟨sound, t, soundNoise s.noiseBuffers sound⟩] else []) } := by
  obtain ⟨ctx, pat, cur, play, tid, b, nst, lss, nb, al, nti, com, vo⟩ := s
  cases ctx with
  | none => simp [playSoundAtTime, ctxGate]
  | some c =>
    by_cases hc : SOUNDS.contains sound = true
    · have hm : sound ∈ SOUNDS := List.elem_iff.mp hc
      simp [playSoundAtTime, ctxGate, hc, hm]
    · have hm : sound ∉ SOUNDS := fun m => hc (List.elem_iff.mpr m)
      simp [playSoundAtTime, ctxGate, hc, hm]

theorem schedIter_eq (step : Nat) (t : ℚ) (r : Nat) (s : State) :
    (if (s.pattern.getD r []).getD step false then
        playSoundAtTime (SOUNDS.getD r "") t s
      else s) =
    { s with voices := s.voices ++ ctxGate s.audioCtx (rowVoice s.noiseBuffers s.pattern step t r).toList } := by
  by_cases hcell : (s.pattern.getD r []).getD step false = true
  · rw [if_pos hcell, playSoundAtTime_eq]
    congr 1
    congr 1
    congr 1
    simp only [rowVoice, hcell, Bool.true_and]
    cases hc2 : SOUNDS.contains (SOUNDS.getD r "") <;> simp [hc2]
  · rw [if_neg hcell]
    simp only [Bool.not_eq_true] at hcell
    have hv : (rowVoice s.noiseBuffers s.pattern step t r).toList = [] := by
      simp only [rowVoice, hcell, Bool.false_and]
      simp
    rw [hv, ctxGate_nil, List.append_nil]

theorem schedFoldl_eq (step : Nat) (t : ℚ) (rows : List Nat) (s : State) :
    rows.foldl (fun acc row =>
      if (acc.pattern.getD row []).getD step false then
        playSoundAtTime (SOUNDS.getD row "") t acc
      else acc) s =
    { s with voices := s.voices ++ ctxGate s.audioCtx (rows.filterMap (rowVoice s.noiseBuffers s.pattern step t)) } := by
  induction rows generalizing s with
  | nil => simp [ctxGate_nil]
  | cons r rest ih =>
    rw [List.foldl_cons, schedIter_eq, ih]
    simp only []
    congr 1
    rw [List.append_assoc, List.filterMap_cons]
    congr 1
    cases hr : rowVoice s.noiseBuffers s.pattern step t r with
    | none => simp [ctxGate_nil]
    | some v =>
      rw [← ctxGate_append]
      simp

theorem scheduleStep_eq (step : Nat) (t : ℚ) (s : State) :
    scheduleStep step t s =
      { s with voices := s.voices ++ stepVoicesIn s step t } := by
  rw [scheduleStep, schedFoldl_eq, stepVoicesIn, stepVoices]

theorem commitStep_eq (s : State) :
    commitStep s =
      { s with
        voices := s.voices ++ stepVoicesIn s s.currentStep s.nextStepTime,
        committed := s.committed ++ [(s.currentStep, s.nextStepTime)],
        nextStepTime := s.nextStepTime + getStepDuration s.bpm,
        currentStep := (s.currentStep + 1) % CONFIG_steps } := by
  rw [commitStep, scheduleStep_eq]

theorem commitStep_committed (s : State) :
    (commitStep s).committed = s.committed ++ [(s.currentStep, s.nextStepTime)] := by
  rw [commitStep_eq]

theorem commitStep_currentStep (s : State) :
    (commitStep s).currentStep = (s.currentStep + 1) % CONFIG_steps := by
  rw [commitStep_eq]

theorem commitStep_nextStepTime (s : State) :
    (commitStep s).nextStepTime = s.nextStepTime + getStepDuration s.bpm := by
  rw [commitStep_eq]

theorem commitStep_voices (s : State) :
    (commitStep s).voices = s.voices ++ stepVoicesIn s s.currentStep s.nextStepTime := by
  rw [commitStep_eq]

theorem commitStep_bpm (s : State) : (commitStep s).bpm = s.bpm := by
  rw [commitStep_eq]

theorem commitStep_audioCtx (s : State) : (commitStep s).audioCtx = s.audioCtx := by
  rw [commitStep_eq]

theorem commitStep_pattern (s : State) : (commitStep s).pattern = s.pattern := by
  rw [commitStep_eq]

theorem commitStep_noiseBuffers (s : State) :
    (commitStep s).noiseBuffers = s.noiseBuffers := by
  rw [commitStep_eq]

theorem commitStep_allocatedNoise (s : State) :
    (commitStep s).allocatedNoise = s.allocatedNoise := by
  rw [commitStep_eq]

theorem commitStep_isPlaying (s : State) : (commitStep s).isPlaying = s.isPlaying := by
  rw [commitStep_eq]

theorem schedulerLoop_succ (fuel : Nat) (now : ℚ) (s : State) :
    schedulerLoop (fuel + 1) now s =
      if s.nextStepTime < now + CONFIG_scheduleAheadTime then
        schedulerLoop fuel now (commitStep s)
      else s := rfl

theorem schedulerLoop_not_lt (fuel : Nat) (now : ℚ) (s : State)
    (h : ¬ s.nextStepTime < now + CONFIG_scheduleAheadTime) :
    schedulerLoop fuel now s = s := by
  cases fuel with
  | zero => rfl
  | succ k => rw [schedulerLoop_succ, if_neg h]

theorem idealCommits_length (t0 d : ℚ) (n : Nat) :
    (idealCommits t0 d n).length = n := by
  simp [idealCommits]

theorem idealCommits_succ (t0 d : ℚ) (n : Nat) :
    idealCommits t0 d (n + 1) =
      idealCommits t0 d n ++ [(n % CONFIG_steps, t0 + (n : ℚ) * d)] := by
  simp [idealCommits, List.range_succ]

theorem runInv_commitStep (t0 d : ℚ) (s : State) (h : RunInv t0 d s) :
    RunInv t0 d (commitStep s) := by
  obtain ⟨⟨c, hc⟩, hd, hcom, hcur, hnst, hvo⟩ := h
  refine ⟨⟨c, ?_⟩, ?_, ?_, ?_, ?_, ?_⟩
  · rw [commitStep_audioCtx]; exact hc
  · rw [commitStep_bpm]; exact hd
  · rw [commitStep_committed]
    have hn : (s.committed ++ [(s.currentStep, s.nextStepTime)]).length =
        s.committed.length + 1 := by simp
    rw [hn, idealCommits_succ, ← hcom, ← hcur, ← hnst]
  · rw [commitStep_currentStep, commitStep_committed, hcur]
    simp only [List.length_append, List.length_singleton, CONFIG_steps]
    omega
  · rw [commitStep_nextStepTime, commitStep_committed, hnst, hd]
    simp only [List.length_append, List.length_singleton]
    push_cast
    ring
  · rw [commitStep_voices, commitStep_committed, commitStep_noiseBuffers,
      commitStep_pattern, List.flatMap_append, ← hvo]
    congr 1
    simp [stepVoicesIn, ctxGate, hc]

theorem runInv_schedulerLoop (t0 d : ℚ) (fuel : Nat) (now : ℚ) (s : State)
    (h : RunInv t0 d s) : RunInv t0 d (schedulerLoop fuel now s) := by
  induction fuel generalizing s with
  | zero => exact h
  | succ k ih =>
    rw [schedulerLoop_succ]
    by_cases hg : s.nextStepTime < now + CONFIG_scheduleAheadTime
    · rw [if_pos hg]
      exact ih _ (runInv_commitStep t0 d s h)
    · rw [if_neg hg]
      exact h

theorem runInv_scheduler (t0 d : ℚ) (fuel : Nat) (now : ℚ) (s : State)
    (h : RunInv t0 d s) : RunInv t0 d (scheduler fuel now s) := by
  rw [scheduler]
  by_cases hp : s.isPlaying = true
  · rw [if_pos hp]
    obtain ⟨⟨c, hc⟩, hd, hcom, hcur, hnst, hvo⟩ :=
      runInv_schedulerLoop t0 d fuel now s h
    exact ⟨⟨c, hc⟩, hd, hcom, hcur, hnst, hvo⟩
  · rw [if_neg hp]
    exact h

theorem runInv_runHeartbeats (t0 d : ℚ) (fuel : Nat) (nows : List ℚ) (s : State)
    (h : RunInv t0 d s) : RunInv t0 d (runOps fuel s (nows.map Op.heartbeat)) := by
  induction nows generalizing s with
  | nil => exact h
  | cons now rest ih =>
    rw [List.map_cons, runOps]
    exact ih _ (runInv_scheduler t0 d fuel now s h)

theorem startSequencer_run (fuel : Nat) (s : State) (c : AudioCtx)
    (hctx : s.audioCtx = some c) (hnp : s.isPlaying = false) :
    startSequencer fuel s =
      (none, scheduler fuel c.currentTime
        { s with
            isPlaying := true,
            currentStep := 0,
            nextStepTime := c.currentTime + 1/20,
            lastScheduledStep := -1 }) := by
  rw [startSequencer, if_neg (by simp [hnp])]
  simp only [hctx]

theorem startSequencer_nullCtx (fuel : Nat) (s : State)
    (hctx : s.audioCtx = none) (hnp : s.isPlaying = false) :
    startSequencer fuel s =
      (some "TypeError: cannot read currentTime of null",
        { s with isPlaying := true }) := by
  rw [startSequencer, if_neg (by simp [hnp])]
  simp only [hctx]

theorem stopSequencer_run (s : State) (h : s.isPlaying = true) :
    stopSequencer s =
      { s with isPlaying := false, schedulerTimerId := none, currentStep := 0 } := by
  rw [stopSequencer, if_pos h]

theorem scheduler_stopped (fuel : Nat) (now : ℚ) (s : State)
    (h : s.isPlaying = false) : scheduler fuel now s = s := by
  rw [scheduler, if_neg (by simp [h])]

theorem stepDuration_ge (bpm : ℚ) (h1 : CONFIG_minBpm ≤ bpm)
    (h2 : bpm ≤ CONFIG_maxBpm) : 1/20 ≤ getStepDuration bpm := by
  unfold CONFIG_minBpm at h1
  unfold CONFIG_maxBpm at h2
  have hb : (0 : ℚ) < bpm := by linarith
  have hb4 : (0 : ℚ) < bpm * 4 := by positivity
  rw [getStepDuration, div_div, le_div_iff₀ hb4]
  nlinarith

theorem schedulerLoop_one (fuel : Nat) (now : ℚ) (s : State)
    (hf : 1 ≤ fuel) (hnst : s.nextStepTime = now + 1/20)
    (hd : 1/20 ≤ getStepDuration s.bpm) :
    schedulerLoop fuel now s = commitStep s := by
  obtain ⟨k, rfl⟩ : ∃ k, fuel = k + 1 := ⟨fuel - 1, by omega⟩
  rw [schedulerLoop_succ, if_pos]
  · apply schedulerLoop_not_lt
    rw [commitStep_nextStepTime, hnst]
    unfold CONFIG_scheduleAheadTime
    rw [not_lt]
    linarith
  · rw [hnst]
    unfold CONFIG_scheduleAheadTime
    linarith

theorem setBpm_bpm (q : ℚ) (s : State) :
    (setBpm q s).bpm = max CONFIG_minBpm (min CONFIG_maxBpm q) := by
  rw [setBpm]

theorem setBpm_bounds (q : ℚ) (s : State) :
    CONFIG_minBpm ≤ (setBpm q s).bpm ∧ (setBpm q s).bpm ≤ CONFIG_maxBpm := by
  rw [setBpm_bpm]
  refine ⟨le_max_left _ _, max_le ?_ (min_le_left _ _)⟩
  unfold CONFIG_minBpm CONFIG_maxBpm
  norm_num

theorem initAudio_fresh (c : AudioCtx) (s : State) (h : s.audioCtx = none) :
    initAudio c s =
      { s with audioCtx := some c,
               allocatedNoise := s.allocatedNoise ++ [1/20, 3/20, 3/10],
               noiseBuffers :=
                 ⟨some s.allocatedNoise.length,
                  some (s.allocatedNoise.length + 1),
                  some (s.allocatedNoise.length + 2)⟩ } := by
  rw [initAudio, if_neg (by simp [h])]
  rw [generateNoiseBuffers]
  simp only [createNoiseBuffer]
  congr 1 <;> simp [List.length_append]

theorem bufInv_commitStep (nb : NoiseBuffers) (al : List ℚ) (s : State)
    (h : BufInv nb al s) : BufInv nb al (commitStep s) := by
  obtain ⟨hso, hnbe, hal, hv⟩ := h
  refine ⟨?_, ?_, ?_, ?_⟩
  · rw [commitStep_audioCtx]; exact hso
  · rw [commitStep_noiseBuffers]; exact hnbe
  · rw [commitStep_allocatedNoise]; exact hal
  · rw [commitStep_voices]
    intro v hvmem
    rcases List.mem_append.mp hvmem with h1 | h2
    · exact hv v h1
    · have h3 : v ∈ stepVoices s.noiseBuffers s.pattern s.currentStep s.nextStepTime := by
        cases hx : s.audioCtx with
        | none => rw [stepVoicesIn, hx] at h2; simp [ctxGate] at h2
        | some cc => rw [stepVoicesIn, hx] at h2; exact h2
      rw [stepVoices, List.mem_filterMap] at h3
      obtain ⟨row, _, hrow⟩ := h3
      rw [rowVoice] at hrow
      by_cases hcond : ((s.pattern.getD row []).getD s.currentStep false &&
          SOUNDS.contains (SOUNDS.getD row "")) = true
      · rw [if_pos hcond] at hrow
        obtain rfl := Option.some_inj.mp hrow
        simp [hnbe]
      · rw [if_neg hcond] at hrow
        cases hrow

theorem bufInv_schedulerLoop (nb : NoiseBuffers) (al : List ℚ) (fuel : Nat)
    (now : ℚ) (s : State) (h : BufInv nb al s) :
    BufInv nb al (schedulerLoop fuel now s) := by
  induction fuel generalizing s with
  | zero => exact h
  | succ k ih =>
    rw [schedulerLoop_succ]
    by_cases hg : s.nextStepTime < now + CONFIG_scheduleAheadTime
    · rw [if_pos hg]
      exact ih _ (bufInv_commitStep nb al s h)
    · rw [if_neg hg]
      exact h

theorem bufInv_scheduler (nb : NoiseBuffers) (al : List ℚ) (fuel : Nat)
    (now : ℚ) (s : State) (h : BufInv nb al s) :
    BufInv nb al (scheduler fuel now s) := by
  rw [scheduler]
  by_cases hp : s.isPlaying = true
  · rw [if_pos hp]
    obtain ⟨hso, hnbe, hal, hv⟩ := bufInv_schedulerLoop nb al fuel now s h
    exact ⟨hso, hnbe, hal, hv⟩
  · rw [if_neg hp]
    exact h

theorem bufInv_play (nb : NoiseBuffers) (al : List ℚ) (sound : String) (t : ℚ)
    (s : State) (h : BufInv nb al s) :
    BufInv nb al (playSoundAtTime sound t s) := by
  obtain ⟨hso, hnbe, hal, hv⟩ := h
  rw [playSoundAtTime_eq]
  refine ⟨hso, hnbe, hal, ?_⟩
  intro v hvmem
  simp only [] at hvmem
  rcases List.mem_append.mp hvmem with h1 | h2
  · exact hv v h1
  · have h3 : v ∈ (if SOUNDS.contains sound then
        [(⟨sound, t, soundNoise s.noiseBuffers sound⟩ : Voice)] else []) := by
      cases hx : s.audioCtx with
      | none => rw [hx] at h2; simp [ctxGate] at h2
      | some cc => rw [hx] at h2; exact h2
    by_cases hc : SOUNDS.contains sound = true
    · rw [if_pos hc] at h3
      simp only [List.mem_singleton] at h3
      subst h3
      simp [hnbe]
    · rw [if_neg hc] at h3
      simp at h3

theorem bufInv_setBpm (nb : NoiseBuffers) (al : List ℚ) (q : ℚ) (s : State)
    (h : BufInv nb al s) : BufInv nb al (setBpm q s) := by
  obtain ⟨hso, hnbe, hal, hv⟩ := h
  rw [setBpm]
  exact ⟨hso, hnbe, hal, hv⟩

theorem bufInv_stop (nb : NoiseBuffers) (al : List ℚ) (s : State)
    (h : BufInv nb al s) : BufInv nb al (stopSequencer s) := by
  obtain ⟨hso, hnbe, hal, hv⟩ := h
  rw [stopSequencer]
  by_cases hp : s.isPlaying = true
  · rw [if_pos hp]
    exact ⟨hso, hnbe, hal, hv⟩
  · rw [if_neg hp]
    exact ⟨hso, hnbe, hal, hv⟩

theorem bufInv_start (nb : NoiseBuffers) (al : List ℚ) (fuel : Nat) (s : State)
    (h : BufInv nb al s) : BufInv nb al (startSequencer fuel s).2 := by
  by_cases hp : s.isPlaying = true
  · rw [startSequencer, if_pos hp]
    exact h
  · have hnp : s.isPlaying = false := by
      cases hb : s.isPlaying
      · rfl
      · exact absurd hb hp
    obtain ⟨c, hc⟩ : ∃ c, s.audioCtx = some c := by
      obtain ⟨hso, _, _, _⟩ := h
      cases hx : s.audioCtx with
      | none => rw [hx] at hso; simp at hso
      | some c => exact ⟨c, rfl⟩
    rw [startSequencer_run fuel s c hc hnp]
    apply bufInv_scheduler
    obtain ⟨hso, hnbe, hal, hv⟩ := h
    exact ⟨hso, hnbe, hal, hv⟩

theorem bufInv_load (nb : NoiseBuffers) (al : List ℚ) (stored : Option SavedData)
    (s : State) (h : BufInv nb al s) : BufInv nb al (loadPattern stored s) := by
  obtain ⟨hso, hnbe, hal, hv⟩ := h
  rcases stored with _ | ⟨pat, bq⟩
  · exact ⟨hso, hnbe, hal, hv⟩
  · rcases pat with _ | p
    · exact ⟨hso, hnbe, hal, hv⟩
    · rw [loadPattern.eq_def]
      simp only []
      by_cases hdim : p.length = CONFIG_rows ∧ (p.getD 0 []).length = CONFIG_steps
      · rw [if_pos hdim]
        rcases bq with _ | q
        · exact ⟨hso, hnbe, hal, hv⟩
        · simp only []
          by_cases hq : q ≠ 0
          · rw [if_pos hq, setBpm]
            exact ⟨hso, hnbe, hal, hv⟩
          · rw [if_neg hq]
            exact ⟨hso, hnbe, hal, hv⟩
      · rw [if_neg hdim]
        exact ⟨hso, hnbe, hal, hv⟩

theorem bufInv_applyOp (nb : NoiseBuffers) (al : List ℚ) (fuel : Nat) (s : State)
    (op : Op) (h : BufInv nb al s) : BufInv nb al (applyOp fuel s op) := by
  cases op with
  | heartbeat now => exact bufInv_scheduler nb al fuel now s h
  | tempo q => exact bufInv_setBpm nb al q s h
  | transportStart => exact bufInv_start nb al fuel s h
  | transportStop => exact bufInv_stop nb al s h
  | preview sound now => exact bufInv_play nb al sound now s h
  | audioInit c =>
    have hso := h.1
    rw [applyOp, initAudio, if_pos hso]
    exact h
  | load stored => exact bufInv_load nb al stored s h

theorem bufInv_runOps (nb : NoiseBuffers) (al : List ℚ) (fuel : Nat)
    (ops : List Op) (s : State) (h : BufInv nb al s) :
    BufInv nb al (runOps fuel s ops) := by
  induction ops generalizing s with
  | nil => exact h
  | cons op rest ih =>
    rw [runOps]
    exact ih _ (bufInv_applyOp nb al fuel s op h)

/-! Claim theorems. -/

/-- C1: while Running, each heartbeat commits exactly the steps whose
next-trigger time falls inside the 0.1s look-ahead horizon (the guard of
`schedulerLoop`), each commit triggering every active instrument of the
current step at that exact timestamp and advancing nextStepTime by the
step period and the step index modulo 16; hence over any run of
heartbeats with no tempo change, started by start(), the committed step
indices form the strict cycle 0,1,...,15,0,... and the committed
timestamps form an arithmetic sequence with common difference the step
duration (this is exactly `idealCommits`). -/
theorem claim1_scheduler_cycle (fuel : Nat) (s0 : State) (c : AudioCtx)
    (nows : List ℚ) (sf : State)
    (hctx : s0.audioCtx = some c) (hplay : s0.isPlaying = false)
    (hcom : s0.committed = []) (hvoi : s0.voices = [])
    (hsf : sf = runOps fuel (startSequencer fuel s0).2 (nows.map Op.heartbeat)) :
    sf.committed =
      idealCommits (c.currentTime + 1/20) (getStepDuration s0.bpm)
        sf.committed.length ∧
    sf.currentStep = sf.committed.length % CONFIG_steps ∧
    sf.nextStepTime =
      (c.currentTime + 1/20) +
        (sf.committed.length : ℚ) * getStepDuration s0.bpm ∧
    sf.voices = sf.committed.flatMap
      (fun p => stepVoices sf.noiseBuffers sf.pattern p.1 p.2) ∧
    getStepDuration sf.bpm = getStepDuration s0.bpm := by
  subst hsf
  have h0 : RunInv (c.currentTime + 1/20) (getStepDuration s0.bpm)
      { s0 with
          isPlaying := true,
          currentStep := 0,
          nextStepTime := c.currentTime + 1/20,
          lastScheduledStep := -1 } := by
    refine ⟨⟨c, hctx⟩, rfl, ?_, ?_, ?_, ?_⟩
    · simp only []
      rw [hcom]
      simp [idealCommits]
    · simp only []
      rw [hcom]
      rfl
    · simp only []
      rw [hcom]
      simp
    · simp only []
      rw [hcom, hvoi]
      rfl
  rw [startSequencer_run fuel s0 c hctx hplay]
  simp only []
  have h1 := runInv_scheduler _ _ fuel c.currentTime _ h0
  have h2 := runInv_runHeartbeats _ _ fuel nows _ h1
  obtain ⟨_, hd, hcom2, hcur2, hnst2, hvo2⟩ := h2
  exact ⟨hcom2, hcur2, hnst2, hvo2, hd⟩

/-- C1 witness: the theorem instantiated at the concrete ready state, a
start, and one heartbeat at clock 1.2. -/
theorem claim1_witness :
    exReady.audioCtx = some exCtx ∧ exReady.isPlaying = false ∧
    exReady.committed = [] ∧ exReady.voices = [] ∧
    (exRun1.committed =
      idealCommits (exCtx.currentTime + 1/20) (getStepDuration exReady.bpm)
        exRun1.committed.length ∧
    exRun1.currentStep = exRun1.committed.length % CONFIG_steps ∧
    exRun1.nextStepTime =
      (exCtx.currentTime + 1/20) +
        (exRun1.committed.length : ℚ) * getStepDuration exReady.bpm ∧
    exRun1.voices = exRun1.committed.flatMap
      (fun p => stepVoices exRun1.noiseBuffers exRun1.pattern p.1 p.2) ∧
    getStepDuration exRun1.bpm = getStepDuration exReady.bpm) :=
  ⟨rfl, rfl, rfl, rfl,
    claim1_scheduler_cycle 8 exReady exCtx [6/5] exRun1 rfl rfl rfl rfl rfl⟩

/-- C2: setBpm while running changes no already-committed timestamp and
no already-emitted voice, nor the pending next-trigger time or step
index; only the period used by subsequent advances changes: the next
commit still fires at the old nextStepTime, and advances by the new
step duration. -/
theorem claim2_tempo_frame (s : State) (q : ℚ) :
    (setBpm q s).committed = s.committed ∧
    (setBpm q s).voices = s.voices ∧
    (setBpm q s).nextStepTime = s.nextStepTime ∧
    (setBpm q s).currentStep = s.currentStep ∧
    (commitStep (setBpm q s)).committed =
      s.committed ++ [(s.currentStep, s.nextStepTime)] ∧
    (commitStep (setBpm q s)).nextStepTime =
      s.nextStepTime + getStepDuration (setBpm q s).bpm := by
  refine ⟨rfl, rfl, rfl, rfl, ?_, ?_⟩
  · rw [commitStep_committed, setBpm]
  · rw [commitStep_nextStepTime, setBpm]

/-- C3: calling start() with the audio clock uninitialized raises an
error (the TypeError thrown by reading currentTime of null) rather than
silently doing nothing; no step is committed and no voice emitted. -/
theorem claim3_start_uninitialized (fuel : Nat) (s : State)
    (hctx : s.audioCtx = none) (hplay : s.isPlaying = false) :
    (startSequencer fuel s).1 =
      some "TypeError: cannot read currentTime of null" ∧
    (startSequencer fuel s).2.committed = s.committed ∧
    (startSequencer fuel s).2.voices = s.voices := by
  rw [startSequencer_nullCtx fuel s hctx hplay]
  exact ⟨rfl, rfl, rfl⟩

/-- C3 witness: start() on the freshly loaded module state. -/
theorem claim3_witness :
    initialState.audioCtx = none ∧ initialState.isPlaying = false ∧
    ((startSequencer 4 initialState).1 =
      some "TypeError: cannot read currentTime of null" ∧
    (startSequencer 4 initialState).2.committed = initialState.committed ∧
    (startSequencer 4 initialState).2.voices = initialState.voices) :=
  ⟨rfl, rfl, claim3_start_uninitialized 4 initialState rfl rfl⟩

/-- C4 counterexample: the startup restore path (init, app.js line 859)
assigns a persisted bpm of 300 to the live tempo unclamped, so the claim
that every loaded out-of-range tempo is clamped to [60,180] is false. -/
theorem claim4_counterexample :
    (initRestore (some ⟨none, some 300⟩) initialState).bpm = 300 ∧
    ¬ (initRestore (some ⟨none, some 300⟩) initialState).bpm ≤ CONFIG_maxBpm := by
  decide

/-- C4 amended: a persisted bpm loaded through the Load control
(loadPattern) goes through setBpm and the live tempo stays in [60,180];
a persisted nonzero bpm restored at startup (init) is installed
unclamped, exactly as stored. -/
theorem claim4_amended (stored : Option SavedData) (s : State)
    (h1 : CONFIG_minBpm ≤ s.bpm) (h2 : s.bpm ≤ CONFIG_maxBpm)
    (pat : Option (List (List Bool))) (q : ℚ) (hq : q ≠ 0) :
    (CONFIG_minBpm ≤ (loadPattern stored s).bpm ∧
      (loadPattern stored s).bpm ≤ CONFIG_maxBpm) ∧
    (initRestore (some ⟨pat, some q⟩) s).bpm = q := by
  constructor
  · rcases stored with _ | ⟨patj, bq⟩
    · exact ⟨h1, h2⟩
    · rcases patj with _ | p
      · exact ⟨h1, h2⟩
      · rw [loadPattern.eq_def]
        simp only []
        by_cases hdim : p.length = CONFIG_rows ∧ (p.getD 0 []).length = CONFIG_steps
        · rw [if_pos hdim]
          rcases bq with _ | qq
          · exact ⟨h1, h2⟩
          · simp only []
            by_cases hqq : qq ≠ 0
            · rw [if_pos hqq]
              exact setBpm_bounds qq _
            · rw [if_neg hqq]
              exact ⟨h1, h2⟩
        · rw [if_neg hdim]
          exact ⟨h1, h2⟩
  · rcases pat with _ | p
    · rw [initRestore.eq_def]
      simp only []
      rw [if_pos hq]
    · rw [initRestore.eq_def]
      simp only []
      rw [if_pos hq]

/-- C4 amended witness: loading nothing keeps the default 120 in range,
and restoring a persisted bpm of 300 at startup installs 300. -/
theorem claim4_witness :
    CONFIG_minBpm ≤ initialState.bpm ∧ initialState.bpm ≤ CONFIG_maxBpm ∧
    (300 : ℚ) ≠ 0 ∧
    ((CONFIG_minBpm ≤ (loadPattern none initialState).bpm ∧
       (loadPattern none initialState).bpm ≤ CONFIG_maxBpm) ∧
      (initRestore (some ⟨none, some 300⟩) initialState).bpm = 300) :=
  ⟨by decide, by decide, by decide,
    claim4_amended none initialState (by decide) (by decide) none 300 (by decide)⟩

/-- C5 counterexample: loadPattern validates only the row count and the
first row length, so the ragged `badPattern` (rows 1-5 have 0 columns)
passes validation and becomes the live pattern, refuting the claim that
every pattern that is not exactly 6 by 16 is rejected before
installation. -/
theorem claim5_counterexample :
    (loadPattern (some ⟨some badPattern, none⟩) initialState).pattern =
      badPattern ∧
    ¬ (badPattern.length = CONFIG_rows ∧
        ∀ r ∈ badPattern, r.length = CONFIG_steps) := by
  decide

/-- C5 amended: the Load path installs a stored pattern iff it is an
array of exactly CONFIG.rows rows whose first row has exactly
CONFIG.steps columns (rows beyond the first are not validated), and the
startup restore path installs any present stored pattern with no
dimension validation at all. -/
theorem claim5_amended (p : List (List Bool)) (b : Option ℚ) (s : State) :
    (loadPattern (some ⟨some p, b⟩) s).pattern =
      (if p.length = CONFIG_rows ∧ (p.getD 0 []).length = CONFIG_steps then p
        else s.pattern) ∧
    (initRestore (some ⟨some p, none⟩) s).pattern = p := by
  constructor
  · rw [loadPattern.eq_def]
    simp only []
    by_cases hdim : p.length = CONFIG_rows ∧ (p.getD 0 []).length = CONFIG_steps
    · rw [if_pos hdim, if_pos hdim]
      rcases b with _ | q
      · rfl
      · simp only []
        by_cases hq : q ≠ 0
        · rw [if_pos hq, setBpm]
        · rw [if_neg hq]
    · rw [if_neg hdim, if_neg hdim]
  · rw [initRestore.eq_def]

theorem scheduler_playing (fuel : Nat) (now : ℚ) (s : State)
    (h : s.isPlaying = true) :
    scheduler fuel now s =
      { schedulerLoop fuel now s with
          schedulerTimerId := some (schedulerLoop fuel now s).nextTimerId,
          nextTimerId := (schedulerLoop fuel now s).nextTimerId + 1 } := by
  rw [scheduler, if_pos h]

theorem startSequencer_first_commit (fuel : Nat) (s : State) (c : AudioCtx)
    (hctx : s.audioCtx = some c) (hnp : s.isPlaying = false)
    (hb1 : CONFIG_minBpm ≤ s.bpm) (hb2 : s.bpm ≤ CONFIG_maxBpm)
    (hf : 1 ≤ fuel) :
    (startSequencer fuel s).1 = none ∧
    (startSequencer fuel s).2.committed =
      s.committed ++ [(0, c.currentTime + 1/20)] ∧
    (startSequencer fuel s).2.nextStepTime =
      c.currentTime + 1/20 + getStepDuration s.bpm ∧
    (startSequencer fuel s).2.currentStep = 1 % CONFIG_steps := by
  have hloop := schedulerLoop_one fuel c.currentTime
    { s with
        isPlaying := true,
        currentStep := 0,
        nextStepTime := c.currentTime + 1/20,
        lastScheduledStep := -1 }
    hf rfl (stepDuration_ge s.bpm hb1 hb2)
  have hsched := scheduler_playing fuel c.currentTime
    { s with
        isPlaying := true,
        currentStep := 0,
        nextStepTime := c.currentTime + 1/20,
        lastScheduledStep := -1 } rfl
  rw [hloop] at hsched
  rw [startSequencer_run fuel s c hctx hnp]
  refine ⟨rfl, ?_, ?_, ?_⟩
  · rw [hsched]
    simp only []
    rw [commitStep_committed]
  · rw [hsched]
    simp only []
    rw [commitStep_nextStepTime]
  · rw [hsched]
    simp only []
    rw [commitStep_currentStep]

/-- C6: stopping a running transport clears the pending wake-up and
resets the step index to 0 without touching the committed log, and a
subsequent start() succeeds, re-seeds the next-step timestamp to the
current clock reading plus the 0.05s safety margin, and commits exactly
the fresh step 0 at that timestamp - nothing from the stopped period is
replayed. -/
theorem claim6_transport_reset (fuel : Nat) (s : State) (c : AudioCtx)
    (hplay : s.isPlaying = true) (hctx : s.audioCtx = some c)
    (hb1 : CONFIG_minBpm ≤ s.bpm) (hb2 : s.bpm ≤ CONFIG_maxBpm)
    (hf : 1 ≤ fuel) :
    (stopSequencer s).isPlaying = false ∧
    (stopSequencer s).schedulerTimerId = none ∧
    (stopSequencer s).currentStep = 0 ∧
    (stopSequencer s).committed = s.committed ∧
    (startSequencer fuel (stopSequencer s)).1 = none ∧
    (startSequencer fuel (stopSequencer s)).2.committed =
      s.committed ++ [(0, c.currentTime + 1/20)] ∧
    (startSequencer fuel (stopSequencer s)).2.nextStepTime =
      c.currentTime + 1/20 + getStepDuration s.bpm ∧
    (startSequencer fuel (stopSequencer s)).2.currentStep =
      1 % CONFIG_steps := by
  have hstop := stopSequencer_run s hplay
  have hctxT : (stopSequencer s).audioCtx = some c := by rw [hstop]; exact hctx
  have hnpT : (stopSequencer s).isPlaying = false := by rw [hstop]
  have hb1T : CONFIG_minBpm ≤ (stopSequencer s).bpm := by rw [hstop]; exact hb1
  have hb2T : (stopSequencer s).bpm ≤ CONFIG_maxBpm := by rw [hstop]; exact hb2
  obtain ⟨h5, h6, h7, h8⟩ :=
    startSequencer_first_commit fuel (stopSequencer s) c hctxT hnpT hb1T hb2T hf
  refine ⟨by rw [hstop], by rw [hstop], by rw [hstop], by rw [hstop],
    h5, ?_, ?_, h8⟩
  · rw [h6, hstop]
  · rw [h7, hstop]

/-- C6 witness: the theorem at the concrete mid-run state. -/
theorem claim6_witness :
    exRunning.isPlaying = true ∧ exRunning.audioCtx = some exCtx ∧
    CONFIG_minBpm ≤ exRunning.bpm ∧ exRunning.bpm ≤ CONFIG_maxBpm ∧
    1 ≤ 4 ∧
    ((stopSequencer exRunning).isPlaying = false ∧
    (stopSequencer exRunning).schedulerTimerId = none ∧
    (stopSequencer exRunning).currentStep = 0 ∧
    (stopSequencer exRunning).committed = exRunning.committed ∧
    (startSequencer 4 (stopSequencer exRunning)).1 = none ∧
    (startSequencer 4 (stopSequencer exRunning)).2.committed =
      exRunning.committed ++ [(0, exCtx.currentTime + 1/20)] ∧
    (startSequencer 4 (stopSequencer exRunning)).2.nextStepTime =
      exCtx.currentTime + 1/20 + getStepDuration exRunning.bpm ∧
    (startSequencer 4 (stopSequencer exRunning)).2.currentStep =
      1 % CONFIG_steps) :=
  ⟨rfl, rfl, by decide, by decide, by decide,
    claim6_transport_reset 4 exRunning exCtx rfl rfl
      (by decide) (by decide) (by decide)⟩

/-- C7: after stop() returns, the transport is Stopped with no pending
wake-up, the committed and voice logs are exactly as before the stop,
and a heartbeat that still fires on the stopped state is a complete
no-op: it commits no step and re-arms no wake-up timer. -/
theorem claim7_stop_halts (s : State) (fuel : Nat) (now : ℚ)
    (hplay : s.isPlaying = true) :
    (stopSequencer s).isPlaying = false ∧
    (stopSequencer s).schedulerTimerId = none ∧
    (stopSequencer s).committed = s.committed ∧
    (stopSequencer s).voices = s.voices ∧
    scheduler fuel now (stopSequencer s) = stopSequencer s := by
  rw [stopSequencer_run s hplay]
  exact ⟨rfl, rfl, rfl, rfl, scheduler_stopped fuel now _ rfl⟩

/-- C7 witness: the theorem at the concrete mid-run state, with a stray
heartbeat firing at clock 2. -/
theorem claim7_witness :
    exRunning.isPlaying = true ∧
    ((stopSequencer exRunning).isPlaying = false ∧
    (stopSequencer exRunning).schedulerTimerId = none ∧
    (stopSequencer exRunning).committed = exRunning.committed ∧
    (stopSequencer exRunning).voices = exRunning.voices ∧
    scheduler 4 2 (stopSequencer exRunning) = stopSequencer exRunning) :=
  ⟨rfl, claim7_stop_halts exRunning 4 2 rfl⟩

/-- C8: when audio output is first initialized the three noise buffers
are generated exactly once (three fresh allocations of durations 0.05,
0.15 and 0.3 seconds, stored in the short, medium and long slots); a
second initAudio is a no-op; over any further event sequence no noise
buffer is allocated and the slots never change, and every voice ever
emitted reads exactly the buffers its sound dictates from that frozen
table - snare the long buffer, hihat the medium, clap three shorts and
the long - so repeated hits reuse reference-identical buffers. -/
theorem claim8_noise_buffers_once (c c2 : AudioCtx) (s : State) (fuel : Nat)
    (ops : List Op) (hctx : s.audioCtx = none) (hvoi : s.voices = []) :
    (initAudio c s).noiseBuffers =
      ⟨some s.allocatedNoise.length, some (s.allocatedNoise.length + 1),
        some (s.allocatedNoise.length + 2)⟩ ∧
    (initAudio c s).allocatedNoise = s.allocatedNoise ++ [1/20, 3/20, 3/10] ∧
    initAudio c2 (initAudio c s) = initAudio c s ∧
    (runOps fuel (initAudio c s) ops).noiseBuffers = (initAudio c s).noiseBuffers ∧
    (runOps fuel (initAudio c s) ops).allocatedNoise =
      (initAudio c s).allocatedNoise ∧
    (∀ v ∈ (runOps fuel (initAudio c s) ops).voices,
      v.noise = soundNoise (initAudio c s).noiseBuffers v.sound) ∧
    soundNoise (initAudio c s).noiseBuffers "snare" =
      [some (s.allocatedNoise.length + 2)] ∧
    soundNoise (initAudio c s).noiseBuffers "hihat" =
      [some (s.allocatedNoise.length + 1)] ∧
    soundNoise (initAudio c s).noiseBuffers "clap" =
      [some s.allocatedNoise.length, some s.allocatedNoise.length,
        some s.allocatedNoise.length, some (s.allocatedNoise.length + 2)] := by
  have hfresh := initAudio_fresh c s hctx
  have hnb : (initAudio c s).noiseBuffers =
      ⟨some s.allocatedNoise.length, some (s.allocatedNoise.length + 1),
        some (s.allocatedNoise.length + 2)⟩ := by rw [hfresh]
  have hal : (initAudio c s).allocatedNoise =
      s.allocatedNoise ++ [1/20, 3/20, 3/10] := by rw [hfresh]
  have hso : (initAudio c s).audioCtx.isSome = true := by rw [hfresh]; rfl
  have hbuf : BufInv (initAudio c s).noiseBuffers (initAudio c s).allocatedNoise
      (initAudio c s) := by
    refine ⟨hso, rfl, rfl, ?_⟩
    intro v hv
    rw [hfresh] at hv
    simp only [] at hv
    rw [hvoi] at hv
    simp at hv
  obtain ⟨_, hnb2, hal2, hv2⟩ := bufInv_runOps _ _ fuel ops _ hbuf
  have hid : initAudio c2 (initAudio c s) = initAudio c s := by
    rw [initAudio, if_pos hso]
  refine ⟨hnb, hal, hid, hnb2, hal2, hv2, ?_, ?_, ?_⟩
  · rw [hnb]; rfl
  · rw [hnb]; rfl
  · rw [hnb]; rfl

/-- C8 witness: audio initialized on the fresh module state, then a
mixed run of transport, heartbeat, preview and tempo events. -/
theorem claim8_witness :
    initialState.audioCtx = none ∧ initialState.voices = [] ∧
    (exReady.noiseBuffers = ⟨some 0, some 1, some 2⟩ ∧
    exReady.allocatedNoise = [1/20, 3/20, 3/10] ∧
    initAudio exCtx exReady = exReady ∧
    (runOps 4 exReady exOps).noiseBuffers = exReady.noiseBuffers ∧
    (runOps 4 exReady exOps).allocatedNoise = exReady.allocatedNoise ∧
    (∀ v ∈ (runOps 4 exReady exOps).voices,
      v.noise = soundNoise exReady.noiseBuffers v.sound) ∧
    soundNoise exReady.noiseBuffers "snare" = [some 2] ∧
    soundNoise exReady.noiseBuffers "hihat" = [some 1] ∧
    soundNoise exReady.noiseBuffers "clap" =
      [some 0, some 0, some 0, some 2]) :=
  ⟨rfl, rfl, claim8_noise_buffers_once exCtx exCtx initialState 4 exOps rfl rfl⟩

/-- C9: setBpm stores exactly the input clamped to [60,180] - the
max-min composition of app.js line 498 - and the stored tempo is always
inside the range; setBpm is a total state update with no error
channel. -/
theorem claim9_setBpm_clamps (s : State) (n : ℤ) :
    (setBpm (n : ℚ) s).bpm = max 60 (min 180 (n : ℚ)) ∧
    (60 : ℚ) ≤ (setBpm (n : ℚ) s).bpm ∧
    (setBpm (n : ℚ) s).bpm ≤ 180 := by
  have h := setBpm_bounds (n : ℚ) s
  exact ⟨by simp [setBpm_bpm, CONFIG_minBpm, CONFIG_maxBpm], h.1, h.2⟩

/-- C10: for every tempo in [60,180] the step duration computed by
getStepDuration is 60/bpm/4 seconds, within the 1e-9 tolerance (the
difference is exactly zero in the rational model). -/
theorem claim10_step_duration (bpm : ℚ) (h1 : 60 ≤ bpm) (h2 : bpm ≤ 180) :
    |getStepDuration bpm - 60 / bpm / 4| ≤ 1 / 1000000000 := by
  rw [getStepDuration, sub_self, abs_zero]
  norm_num

/-- C10 witness: the theorem at 120 beats per minute. -/
theorem claim10_witness :
    (60 : ℚ) ≤ 120 ∧ (120 : ℚ) ≤ 180 ∧
    |getStepDuration 120 - 60 / 120 / 4| ≤ 1 / 1000000000 :=
  ⟨by norm_num, by norm_num,
    claim10_step_duration 120 (by norm_num) (by norm_num)⟩
